import Mathlib

/-!
Verification development for the simple-logger repository.

The embedding models the logger found in the repository headers:
the main variant (`simple_logger::Log` / `simple_logger::Logger`), the
duplicated variant `simple_logger::SimpleLogger`, and `tiny_logger::TinyLogger`.
Streams are modelled as a `Sink` carrying the bytes written so far and a
flush counter; an emitter is the per-instance state fixed at construction.
Time since epoch is modelled in whole milliseconds (the finest unit the
logger ever inspects), so the hour/minute/second/millisecond computations
of `printTime` are exact images of the C++ `duration_cast` chain.
-/

namespace SimpleLogger

/-- `enum class LogLevel : uint8_t { Debug = 0, Info = 1, Warning = 2, Error = 3 }`. -/
inductive LogLevel where
  | Debug
  | Info
  | Warning
  | Error
deriving DecidableEq, Repr

/-- The underlying integer value of a `LogLevel` enumerator. -/
def LogLevel.toNat : LogLevel → Nat
  | .Debug => 0
  | .Info => 1
  | .Warning => 2
  | .Error => 3

/-- `logLevelToString` from the header: the printable name of each level. -/
def logLevelToString : LogLevel → String
  | .Debug => "Debug"
  | .Info => "Info"
  | .Warning => "Warning"
  | .Error => "Error"

/-- The `Config` class: threshold level, function-signature toggle, timezone
adjustment in hours, and the (mutable) log file name. -/
structure Config where
  logLevel : LogLevel
  includeFunctionSignature : Bool
  timezoneAdjustment : Int
  logFileName : String
deriving DecidableEq, Repr

/-- `isActive{Level >= Config::logLevel}`: the emitter is active iff the
message level compares at or above the configured threshold. -/
def isActive (cfg : Config) (level : LogLevel) : Bool :=
  decide (cfg.logLevel.toNat ≤ level.toNat)

/-- `std::source_location`: file name, line, function signature. -/
structure SourceLocation where
  file_name : String
  line : Nat
  function_name : String
deriving DecidableEq, Repr

/-- An output stream: the bytes written to it so far and how many times it
has been flushed. -/
structure Sink where
  data : String
  flushes : Nat
deriving DecidableEq, Repr

/-- Per-instance emitter state: whether `m_stream` was bound to the caller's
sink (active) or to the internal null stream (inactive), fixed at
construction. -/
structure Log where
  active : Bool
deriving DecidableEq, Repr

/-- A write through the emitter's `m_stream`: bytes reach the sink only when
the stream reference was bound to it (active); the null stream discards. -/
def Log.write (log : Log) (s : String) (sink : Sink) : Sink :=
  if log.active then { sink with data := sink.data ++ s } else sink

/-- `std::setfill('0') << std::setw(w)` followed by an integer: left-pad the
decimal representation with zeros up to width `w` (no truncation). -/
def padNum (w : Nat) (n : Int) : String :=
  String.mk (List.replicate (w - (toString n).length) '0') ++ toString n

/-- `Log::printTime`: hours mod 24 plus timezone adjustment, minutes mod 60,
seconds mod 60, milliseconds mod 100, written through the emitter with
widths 2, 2, 2, 3.  `tse` is the time since epoch in milliseconds. -/
def Log.printTime (log : Log) (cfg : Config) (tse : Nat) (sink : Sink) : Sink :=
  let s1 := log.write (padNum 2 ((tse / 3600000 % 24 : Nat) + cfg.timezoneAdjustment)) sink
  let s2 := log.write ":" s1
  let s3 := log.write (padNum 2 (tse / 60000 % 60 : Nat)) s2
  let s4 := log.write ":" s3
  let s5 := log.write (padNum 2 (tse / 1000 % 60 : Nat)) s4
  let s6 := log.write "." s5
  log.write (padNum 3 (tse % 100 : Nat)) s6

/-- `std::strrchr(s, c)` restricted to what `printFileName` uses: the suffix
of the string strictly after the LAST occurrence of `c`, or `none` when `c`
does not occur. -/
def strrchrSuffix : List Char → Char → Option (List Char)
  | [], _ => none
  | x :: xs, c =>
    match strrchrSuffix xs c with
    | some r => some r
    | none => if x = c then some xs else none

/-- The string `Log::printFileName` writes: everything after the last `'/'`
when the path contains one, the whole path otherwise. -/
def printFileNameStr (filePath : String) : String :=
  match strrchrSuffix filePath.toList '/' with
  | some tail => String.mk tail
  | none => filePath

/-- `Log::printFileName`: writes the basename through the emitter. -/
def Log.printFileName (log : Log) (filePath : String) (sink : Sink) : Sink :=
  log.write (printFileNameStr filePath) sink

/-- The `Log` constructor: binds `m_stream` to the sink when active (to the
null stream otherwise) and, when active, writes the formatted line head:
`[` time `][` level `][` basename `:` line `]`, optionally
`[` function signature `]`, then one space. -/
def Log.construct (cfg : Config) (level : LogLevel) (loc : SourceLocation)
    (tse : Nat) (sink : Sink) : Log × Sink :=
  let log : Log := { active := isActive cfg level }
  if log.active then
    let s1 := log.write "[" sink
    let s2 := log.printTime cfg tse s1
    let s3 := log.write ("][" ++ logLevelToString level ++ "][") s2
    let s4 := log.printFileName loc.file_name s3
    let s5 := log.write (":" ++ toString loc.line ++ "]") s4
    let s6 := if cfg.includeFunctionSignature then
        log.write ("[" ++ loc.function_name ++ "]") s5
      else s5
    (log, log.write " " s6)
  else
    (log, sink)

/-- `Log::operator<<`: writes the token's stream representation when active
and returns the same emitter (`return *this`). -/
def Log.insert (log : Log) (tokenText : String) (sink : Sink) : Log × Sink :=
  (log, log.write tokenText sink)

/-- The `Log` destructor: when active, `m_stream << std::endl` writes one
newline and flushes the sink; when inactive, nothing happens. -/
def Log.destruct (log : Log) (sink : Sink) : Sink :=
  if log.active then { data := sink.data ++ "\n", flushes := sink.flushes + 1 } else sink

/-- Which stream reference `m_stream` holds. -/
inductive StreamRef where
  | sinkRef
  | nullRef
deriving DecidableEq, Repr

/-- `Log::getStream`: returns `m_stream`, i.e. the caller's sink when the
emitter is active and the null stream otherwise. -/
def Log.getStream (log : Log) : StreamRef :=
  if log.active then .sinkRef else .nullRef

/-- Writing directly through an exposed stream reference. -/
def StreamRef.writeTo (r : StreamRef) (s : String) (sink : Sink) : Sink :=
  match r with
  | .sinkRef => { sink with data := sink.data ++ s }
  | .nullRef => sink

/-- A sequence of `operator<<` appends on one emitter. -/
def Log.appendAll (log : Log) (tokens : List String) (sink : Sink) : Sink :=
  tokens.foldl (fun s t => (log.insert t s).2) sink

/-- The remainder of an emitter's life after construction: the appends and
then the destructor.  It consults only the state frozen in `log`. -/
def Log.continueWith (log : Log) (tokens : List String) (sink : Sink) : Sink :=
  log.destruct (log.appendAll tokens sink)

/-- One complete emitter lifetime: construction, a list of appends, destruction. -/
def runLog (cfg : Config) (level : LogLevel) (loc : SourceLocation) (tse : Nat)
    (tokens : List String) (sink : Sink) : Sink :=
  let p := Log.construct cfg level loc tse sink
  p.1.continueWith tokens p.2

/-- An emitter lifetime in which the caller writes `direct` straight to the
reference returned by `getStream` between construction and destruction. -/
def runLogDirect (cfg : Config) (level : LogLevel) (loc : SourceLocation) (tse : Nat)
    (direct : String) (sink : Sink) : Sink :=
  let p := Log.construct cfg level loc tse sink
  p.1.destruct (p.1.getStream.writeTo direct p.2)

/-- An emitter constructed under `cfg`, after which the process configuration
is changed to `cfg2`; the already-built emitter's remaining operations read
only its own frozen state (in the C++ source the activity flag and the
stream binding are fixed inside the object), so `cfg2` is never consulted. -/
def runLogReconfigured (cfg cfg2 : Config) (level : LogLevel) (loc : SourceLocation)
    (tse : Nat) (tokens : List String) (sink : Sink) : Sink :=
  let p := Log.construct cfg level loc tse sink
  p.1.continueWith tokens p.2

/-- Plain in-order concatenation of the token representations. -/
def concatTokens : List String → String
  | [] => ""
  | t :: ts => t ++ concatTokens ts

/-- The timestamp text `printTime` produces, as one string. -/
def timeString (cfg : Config) (tse : Nat) : String :=
  padNum 2 ((tse / 3600000 % 24 : Nat) + cfg.timezoneAdjustment) ++ ":" ++
  padNum 2 (tse / 60000 % 60 : Nat) ++ ":" ++
  padNum 2 (tse / 1000 % 60 : Nat) ++ "." ++
  padNum 3 (tse % 100 : Nat)

/-- The full line head an active emitter writes during construction. -/
def headString (cfg : Config) (level : LogLevel) (loc : SourceLocation) (tse : Nat) : String :=
  "[" ++ timeString cfg tse ++ "][" ++ logLevelToString level ++ "][" ++
  printFileNameStr loc.file_name ++ ":" ++ toString loc.line ++ "]" ++
  (if cfg.includeFunctionSignature then "[" ++ loc.function_name ++ "]" else "") ++ " "

/-- State of the process-wide `Config::logFile` handle: whether it is open,
how many `std::ofstream` open attempts have been made, and the file name
used by the last attempt. -/
structure LogFileState where
  isOpen : Bool
  opens : Nat
  name : Option String
deriving DecidableEq, Repr

/-- `static inline std::ofstream logFile;` — default-constructed: not open,
no open attempted. -/
def LogFileState.init : LogFileState := { isOpen := false, opens := 0, name := none }

/-- `Config::getLogFile`: opens `logFileName` only when the handle is not yet
open, then returns the (unique, process-wide) handle.  `ok` is whether the
filesystem lets the open succeed. -/
def getLogFile (cfg : Config) (ok : Bool) (st : LogFileState) : LogFileState :=
  if st.isOpen then st
  else { isOpen := ok, opens := st.opens + 1, name := some cfg.logFileName }

/-- The build-selected default threshold: `Info` under `NDEBUG`, else `Debug`. -/
def defaultLogLevel (ndebug : Bool) : LogLevel := if ndebug then .Info else .Debug

/-- The `Config` statics as initialized in the header for a given build mode;
`logFileName` defaults to the threshold level's name followed by `.log`. -/
def Config.mkDefault (ndebug : Bool) : Config :=
  { logLevel := defaultLogLevel ndebug
    includeFunctionSignature := false
    timezoneAdjustment := 0
    logFileName := logLevelToString (defaultLogLevel ndebug) ++ ".log" }

end SimpleLogger

namespace Variant2

/-- `SimpleLogger::is_active{Level <= SimpleLoggerConfig::logLevel}` from the
duplicated variant. -/
def is_active (threshold level : SimpleLogger.LogLevel) : Bool :=
  decide (level.toNat ≤ threshold.toNat)

end Variant2

namespace Tiny

/-- The guard of `TinyLogger::operator<<`: bytes reach the stream iff
`Level <= TinyLoggerConfig::logLevel`; every write of the class (line head,
appends, final `std::endl`) goes through this guard. -/
def emits (threshold level : SimpleLogger.LogLevel) : Bool :=
  decide (level.toNat ≤ threshold.toNat)

end Tiny

namespace SimpleLogger

theorem write_flushes (log : Log) (s : String) (sink : Sink) :
    (log.write s sink).flushes = sink.flushes := by
  unfold Log.write
  split <;> rfl

theorem write_true (s : String) (sink : Sink) :
    Log.write ⟨true⟩ s sink = { sink with data := sink.data ++ s } := rfl

theorem write_false (s : String) (sink : Sink) :
    Log.write ⟨false⟩ s sink = sink := rfl

theorem construct_fst (cfg : Config) (level : LogLevel) (loc : SourceLocation)
    (tse : Nat) (sink : Sink) :
    (Log.construct cfg level loc tse sink).1 = ⟨isActive cfg level⟩ := by
  cases h : isActive cfg level <;> simp [Log.construct, h]

theorem printTime_true (cfg : Config) (tse : Nat) (sink : Sink) :
    Log.printTime ⟨true⟩ cfg tse sink = { sink with data := sink.data ++ timeString cfg tse } := by
  simp [Log.printTime, write_true, timeString, String.append_assoc]

theorem construct_snd_active (cfg : Config) (level : LogLevel) (loc : SourceLocation)
    (tse : Nat) (sink : Sink) (h : isActive cfg level = true) :
    (Log.construct cfg level loc tse sink).2 =
      { sink with data := sink.data ++ headString cfg level loc tse } := by
  cases hf : cfg.includeFunctionSignature <;>
    simp [Log.construct, h, hf, printTime_true, Log.printFileName, write_true,
      headString, String.append_assoc]

theorem construct_snd_inactive (cfg : Config) (level : LogLevel) (loc : SourceLocation)
    (tse : Nat) (sink : Sink) (h : isActive cfg level = false) :
    (Log.construct cfg level loc tse sink).2 = sink := by
  simp [Log.construct, h]

theorem appendAll_true (tokens : List String) :
    ∀ sink : Sink, Log.appendAll ⟨true⟩ tokens sink =
      { sink with data := sink.data ++ concatTokens tokens } := by
  induction tokens with
  | nil =>
    intro sink
    simp [Log.appendAll, concatTokens]
  | cons t ts ih =>
    intro sink
    have step : Log.appendAll ⟨true⟩ (t :: ts) sink =
        Log.appendAll ⟨true⟩ ts ((Log.insert ⟨true⟩ t sink).2) := rfl
    rw [step, ih]
    simp [Log.insert, write_true, concatTokens, String.append_assoc]

theorem appendAll_false (tokens : List String) :
    ∀ sink : Sink, Log.appendAll ⟨false⟩ tokens sink = sink := by
  induction tokens with
  | nil => intro sink; rfl
  | cons t ts ih =>
    intro sink
    have step : Log.appendAll ⟨false⟩ (t :: ts) sink =
        Log.appendAll ⟨false⟩ ts ((Log.insert ⟨false⟩ t sink).2) := rfl
    rw [step]
    exact ih _

theorem destruct_true (sink : Sink) :
    Log.destruct ⟨true⟩ sink = ⟨sink.data ++ "\n", sink.flushes + 1⟩ := rfl

theorem destruct_false (sink : Sink) :
    Log.destruct ⟨false⟩ sink = sink := rfl

theorem runLog_active (cfg : Config) (level : LogLevel) (loc : SourceLocation)
    (tse : Nat) (tokens : List String) (sink : Sink) (h : isActive cfg level = true) :
    runLog cfg level loc tse tokens sink =
      ⟨sink.data ++ headString cfg level loc tse ++ concatTokens tokens ++ "\n",
        sink.flushes + 1⟩ := by
  show (Log.construct cfg level loc tse sink).1.continueWith tokens
      (Log.construct cfg level loc tse sink).2 = _
  rw [construct_fst, construct_snd_active cfg level loc tse sink h, h]
  unfold Log.continueWith
  rw [appendAll_true, destruct_true]

theorem runLog_inactive (cfg : Config) (level : LogLevel) (loc : SourceLocation)
    (tse : Nat) (tokens : List String) (sink : Sink) (h : isActive cfg level = false) :
    runLog cfg level loc tse tokens sink = sink := by
  show (Log.construct cfg level loc tse sink).1.continueWith tokens
      (Log.construct cfg level loc tse sink).2 = _
  rw [construct_fst, construct_snd_inactive cfg level loc tse sink h, h]
  show Log.destruct ⟨false⟩ (Log.appendAll ⟨false⟩ tokens sink) = sink
  rw [appendAll_false]
  exact destruct_false sink

end SimpleLogger

namespace SimpleLogger

theorem strrchrSuffix_eq_none {l : List Char} {c : Char} :
    strrchrSuffix l c = none ↔ c ∉ l := by
  induction l with
  | nil => simp [strrchrSuffix]
  | cons x xs ih =>
    cases h : strrchrSuffix xs c with
    | some r =>
      simp only [strrchrSuffix, h]
      simp only [List.mem_cons]
      constructor
      · intro hcontr; exact absurd hcontr (by simp)
      · intro hnm
        exact absurd (ih.mpr (fun hmem => hnm (Or.inr hmem))) (by simp [h])
    | none =>
      simp only [strrchrSuffix, h, List.mem_cons]
      constructor
      · intro hif
        by_cases hx : x = c
        · simp [hx] at hif
        · intro hor
          rcases hor with hc | hmem
          · exact hx hc.symm
          · exact (ih.mp h) hmem
      · intro hnm
        have hx : x ≠ c := fun hc => hnm (Or.inl hc.symm)
        simp [hx]

theorem strrchrSuffix_spec {l r : List Char} {c : Char}
    (h : strrchrSuffix l c = some r) : c ∉ r ∧ ∃ pre, l = pre ++ c :: r := by
  induction l with
  | nil => simp [strrchrSuffix] at h
  | cons x xs ih =>
    cases hx : strrchrSuffix xs c with
    | some r2 =>
      rw [strrchrSuffix, hx] at h
      obtain rfl : r2 = r := by simpa using h
      obtain ⟨hn, pre, hpre⟩ := ih hx
      exact ⟨hn, x :: pre, by rw [hpre]; rfl⟩
    | none =>
      rw [strrchrSuffix, hx] at h
      by_cases hxc : x = c
      · subst hxc
        rw [if_pos rfl] at h
        obtain rfl : xs = r := by simpa using h
        exact ⟨strrchrSuffix_eq_none.mp hx, [], rfl⟩
      · simp [hxc] at h

end SimpleLogger

namespace Claims

open SimpleLogger

/-- Claim C1: an emitter writes output iff its severity meets or exceeds the
configured threshold in the order Debug < Info < Warning < Error; when the
severity is below the threshold, construction plus any number of appends
plus destruction writes zero bytes and changes nothing on the sink, so in
particular an immediate construct/destroy of an inactive emitter leaves the
sink's byte count unchanged. -/
theorem severity_gate (cfg : Config) (level : LogLevel) (loc : SourceLocation)
    (tse : Nat) (tokens : List String) (sink : Sink) :
    (isActive cfg level = true ↔ cfg.logLevel.toNat ≤ level.toNat)
    ∧ ((runLog cfg level loc tse tokens sink).data ≠ sink.data ↔ isActive cfg level = true)
    ∧ (isActive cfg level = false → runLog cfg level loc tse tokens sink = sink) := by
  refine ⟨by simp [isActive], ?_, fun h => runLog_inactive cfg level loc tse tokens sink h⟩
  cases h : isActive cfg level with
  | true =>
    rw [runLog_active cfg level loc tse tokens sink h]
    simp only [iff_true]
    intro hEq
    have hlen := congrArg String.length hEq
    have h1 : ("\n" : String).length = 1 := rfl
    simp only [String.length_append, h1] at hlen
    omega
  | false =>
    rw [runLog_inactive cfg level loc tse tokens sink h]
    simp

/-- Witness for C1 at a concrete input: under the release default
configuration (threshold `Info`), a `Debug` emitter is inactive and a full
construct/append/destroy cycle leaves the sink untouched. -/
theorem severity_gate_witness :
    isActive (Config.mkDefault true) .Debug = false ∧
    runLog (Config.mkDefault true) .Debug ⟨"example.cpp", 6, "void foo()"⟩ 60264078
      ["dropped"] ⟨"seed", 3⟩ = ⟨"seed", 3⟩ :=
  ⟨by decide,
    (severity_gate (Config.mkDefault true) .Debug ⟨"example.cpp", 6, "void foo()"⟩ 60264078
      ["dropped"] ⟨"seed", 3⟩).2.2 (by decide)⟩

/-- Claim C2: with function-signature inclusion disabled, an active emitter's
complete output is exactly bracketed time, level name, basename and line,
one space, the appended content verbatim, and a final newline; the sink is
flushed once. -/
theorem active_output_line (cfg : Config) (level : LogLevel) (loc : SourceLocation)
    (tse : Nat) (tokens : List String) (sink : Sink)
    (hAct : isActive cfg level = true) (hSig : cfg.includeFunctionSignature = false) :
    runLog cfg level loc tse tokens sink =
      ⟨sink.data ++ ("[" ++ timeString cfg tse ++ "][" ++ logLevelToString level ++ "][" ++
        printFileNameStr loc.file_name ++ ":" ++ toString loc.line ++ "] ") ++
        concatTokens tokens ++ "\n", sink.flushes + 1⟩ := by
  rw [runLog_active cfg level loc tse tokens sink hAct]
  simp [headString, hSig, String.append_assoc]

/-- Witness for C2: severity `Info`, file `example.cpp`, line 6, time fixed
at 16:44:24.078, signature disabled, message `My info message` — the bytes
are exactly the line from the specification. -/
theorem active_output_line_witness :
    isActive (Config.mkDefault true) .Info = true ∧
    (Config.mkDefault true).includeFunctionSignature = false ∧
    runLog (Config.mkDefault true) .Info ⟨"example.cpp", 6, "void foo()"⟩ 60264078
      ["My info message"] ⟨"", 0⟩ =
      ⟨"[16:44:24.078][Info][example.cpp:6] My info message\n", 1⟩ :=
  ⟨by decide, by decide,
    (active_output_line (Config.mkDefault true) .Info ⟨"example.cpp", 6, "void foo()"⟩
      60264078 ["My info message"] ⟨"", 0⟩ (by decide) (by decide)).trans (by decide)⟩

/-- Claim C3: the file-name segment is the trailing component after the last
`'/'` when the path contains a separator (the printed component itself
contains no separator), and the whole path unchanged otherwise. -/
theorem file_basename (path : String) :
    (('/' : Char) ∈ path.toList →
      ∃ pre : List Char, path.toList = pre ++ '/' :: (printFileNameStr path).toList ∧
        ('/' : Char) ∉ (printFileNameStr path).toList)
    ∧ (('/' : Char) ∉ path.toList → printFileNameStr path = path) := by
  constructor
  · intro hmem
    cases h : strrchrSuffix path.toList '/' with
    | none => exact absurd hmem (strrchrSuffix_eq_none.mp h)
    | some r =>
      obtain ⟨hn, pre, hpre⟩ := strrchrSuffix_spec h
      have hplist : (printFileNameStr path).toList = r := by
        unfold printFileNameStr
        rw [h]
        rfl
      refine ⟨pre, ?_, ?_⟩
      · rw [hplist]; exact hpre
      · rw [hplist]; exact hn
  · intro hmem
    unfold printFileNameStr
    rw [strrchrSuffix_eq_none.mpr hmem]

/-- Witness for C3 at concrete inputs: `src/example.cpp` keeps only
`example.cpp` after its last separator. -/
theorem file_basename_witness :
    ('/' : Char) ∈ "src/example.cpp".toList ∧
    ∃ pre : List Char, "src/example.cpp".toList =
        pre ++ '/' :: (printFileNameStr "src/example.cpp").toList ∧
      ('/' : Char) ∉ (printFileNameStr "src/example.cpp").toList :=
  ⟨by decide, (file_basename "src/example.cpp").1 (by decide)⟩

end Claims

namespace Claims

open SimpleLogger

/-- Claim C4: `operator<<` returns the same emitter, and appending a sequence
of values to one active emitter writes exactly the concatenation of their
textual representations in order with no separator bytes, placed between the
line head and the final newline. -/
theorem chained_appends (cfg : Config) (level : LogLevel) (loc : SourceLocation)
    (tse : Nat) (tokens : List String) (sink s0 : Sink) (log : Log) (t : String) :
    ((log.insert t s0).1 = log)
    ∧ (Log.appendAll ⟨true⟩ tokens s0 = { s0 with data := s0.data ++ concatTokens tokens })
    ∧ (isActive cfg level = true →
        runLog cfg level loc tse tokens sink =
          ⟨sink.data ++ headString cfg level loc tse ++ concatTokens tokens ++ "\n",
            sink.flushes + 1⟩) :=
  ⟨rfl, appendAll_true tokens s0,
    fun h => runLog_active cfg level loc tse tokens sink h⟩

/-- Witness for C4: appending `"A"`, then the stream text of the integer 1,
then `"B"` yields the line head followed by exactly `A1B` and the newline. -/
theorem chained_appends_witness :
    isActive (Config.mkDefault true) .Info = true ∧
    concatTokens ["A", toString (1 : Int), "B"] = "A1B" ∧
    runLog (Config.mkDefault true) .Info ⟨"example.cpp", 6, "void foo()"⟩ 60264078
      ["A", toString (1 : Int), "B"] ⟨"", 0⟩ =
      ⟨"[16:44:24.078][Info][example.cpp:6] A1B\n", 1⟩ :=
  ⟨by decide, by decide,
    ((chained_appends (Config.mkDefault true) .Info ⟨"example.cpp", 6, "void foo()"⟩
      60264078 ["A", toString (1 : Int), "B"] ⟨"", 0⟩ ⟨"", 0⟩ ⟨true⟩ "A").2.2
        (by decide)).trans (by decide)⟩

/-- Claim C5: the timestamp written through the emitter consists of hours of
time-since-epoch mod 24 plus the timezone adjustment, minutes mod 60,
seconds mod 60, and milliseconds mod 100, zero-padded to widths 2, 2, 2, 3
and separated as `HH:MM:SS.mmm`; with no timezone adjustment the field
widths are exact, so the whole timestamp is 12 characters with the 3-digit
millisecond field last. -/
theorem time_fields (cfg : Config) (tse : Nat) (sink : Sink) :
    (Log.printTime ⟨true⟩ cfg tse sink =
      { sink with data := sink.data ++
        (padNum 2 ((tse / 3600000 % 24 : Nat) + cfg.timezoneAdjustment) ++ ":" ++
         padNum 2 (tse / 60000 % 60 : Nat) ++ ":" ++
         padNum 2 (tse / 1000 % 60 : Nat) ++ "." ++
         padNum 3 (tse % 100 : Nat)) })
    ∧ (cfg.timezoneAdjustment = 0 → (timeString cfg tse).length = 12) := by
  constructor
  · rw [printTime_true]
    rfl
  · intro hTz
    have pad2_of_lt : ∀ m : Nat, m < 60 → (padNum 2 (m : Int)).length = 2 := by decide
    have pad3_of_lt : ∀ m : Nat, m < 100 → (padNum 3 (m : Int)).length = 3 := by decide
    have hH : (padNum 2 ((tse / 3600000 % 24 : Nat) + cfg.timezoneAdjustment)).length = 2 := by
      rw [hTz, Int.add_zero]
      exact pad2_of_lt _ (Nat.lt_of_lt_of_le (Nat.mod_lt _ (by norm_num)) (by norm_num))
    have hM : (padNum 2 (tse / 60000 % 60 : Nat)).length = 2 :=
      pad2_of_lt _ (Nat.mod_lt _ (by norm_num))
    have hS : (padNum 2 (tse / 1000 % 60 : Nat)).length = 2 :=
      pad2_of_lt _ (Nat.mod_lt _ (by norm_num))
    have hMs : (padNum 3 (tse % 100 : Nat)).length = 3 :=
      pad3_of_lt _ (Nat.mod_lt _ (by norm_num))
    simp only [timeString, String.length_append]
    rw [hH, hM, hS, hMs]
    rfl

/-- Witness for C5: at the specification's example instant the timestamp is
`16:44:24.078`, of length 12. -/
theorem time_fields_witness :
    (Config.mkDefault true).timezoneAdjustment = 0 ∧
    (timeString (Config.mkDefault true) 60264078).length = 12 ∧
    timeString (Config.mkDefault true) 60264078 = "16:44:24.078" :=
  ⟨rfl, (time_fields (Config.mkDefault true) 60264078 ⟨"", 0⟩).2 rfl, by decide⟩

/-- Claim C6: finalization happens exactly at destruction: an active
emitter's destructor appends exactly one newline and performs the one and
only flush of the lifetime (construction and appends never flush), while an
inactive emitter's destructor writes nothing and does not flush. -/
theorem destructor_finalize (log : Log) (sink : Sink) (cfg : Config)
    (level : LogLevel) (loc : SourceLocation) (tse : Nat) (t : String)
    (tokens : List String) :
    (log.active = true → log.destruct sink = ⟨sink.data ++ "\n", sink.flushes + 1⟩)
    ∧ (log.active = false → log.destruct sink = sink)
    ∧ ((Log.construct cfg level loc tse sink).2.flushes = sink.flushes)
    ∧ ((log.insert t sink).2.flushes = sink.flushes)
    ∧ ((runLog cfg level loc tse tokens sink).flushes =
        sink.flushes + (if isActive cfg level then 1 else 0)) := by
  refine ⟨?_, ?_, ?_, ?_, ?_⟩
  · intro h
    obtain ⟨a⟩ := log
    cases a
    · exact absurd h (by simp)
    · rfl
  · intro h
    obtain ⟨a⟩ := log
    cases a
    · rfl
    · exact absurd h (by simp)
  · cases h : isActive cfg level with
    | true => rw [construct_snd_active cfg level loc tse sink h]
    | false => rw [construct_snd_inactive cfg level loc tse sink h]
  · exact write_flushes log t sink
  · cases h : isActive cfg level with
    | true => rw [runLog_active cfg level loc tse tokens sink h]; simp
    | false => rw [runLog_inactive cfg level loc tse tokens sink h]; simp

/-- Witness for C6: a concrete active destructor call appends one newline
and flushes once; a concrete inactive one changes nothing. -/
theorem destructor_finalize_witness :
    Log.destruct ⟨true⟩ ⟨"x", 0⟩ = ⟨"x\n", 1⟩ ∧ Log.destruct ⟨false⟩ ⟨"x", 0⟩ = ⟨"x", 0⟩ :=
  ⟨((destructor_finalize ⟨true⟩ ⟨"x", 0⟩ (Config.mkDefault true) .Info
      ⟨"e.cpp", 1, "f"⟩ 0 "" []).1 rfl).trans (by decide),
    (destructor_finalize ⟨false⟩ ⟨"x", 0⟩ (Config.mkDefault true) .Info
      ⟨"e.cpp", 1, "f"⟩ 0 "" []).2.1 rfl⟩

/-- Claim C7: the Active/Inactive status is computed from the configuration
at construction, is never changed by any later operation of the instance,
and the remaining lifetime of an already-constructed emitter is unaffected
by a configuration change, which influences only emitters constructed
afterwards. -/
theorem status_frozen (cfg cfg2 : Config) (level : LogLevel) (loc : SourceLocation)
    (tse : Nat) (tokens : List String) (sink s0 : Sink) (log : Log) (t : String) :
    ((Log.construct cfg level loc tse sink).1 = ⟨isActive cfg level⟩)
    ∧ ((log.insert t s0).1 = log)
    ∧ (runLogReconfigured cfg cfg2 level loc tse tokens sink =
        runLog cfg level loc tse tokens sink)
    ∧ ((Log.construct cfg2 level loc tse sink).1 = ⟨isActive cfg2 level⟩) :=
  ⟨construct_fst cfg level loc tse sink, rfl, rfl,
    construct_fst cfg2 level loc tse sink⟩

end Claims

namespace Claims

open SimpleLogger

/-- Claim C8: the default file sink starts unopened, the first (successful)
call to `getLogFile` opens it exactly once, every later call returns the
same handle state without another open attempt, and the default file name is
the configured threshold level's name followed by `.log`. -/
theorem log_file_lazy (cfg : Config) (ok : Bool) (st : LogFileState) (ndebug : Bool) :
    (LogFileState.init.opens = 0 ∧ LogFileState.init.isOpen = false)
    ∧ (getLogFile cfg true LogFileState.init =
        { isOpen := true, opens := 1, name := some cfg.logFileName })
    ∧ (st.isOpen = true → getLogFile cfg ok st = st)
    ∧ ((Config.mkDefault ndebug).logFileName =
        logLevelToString (Config.mkDefault ndebug).logLevel ++ ".log") := by
  refine ⟨⟨rfl, rfl⟩, rfl, ?_, ?_⟩
  · intro h
    simp [getLogFile, h]
  · cases ndebug <;> rfl

/-- Witness for C8: the first call opens `Info.log` under the release
default configuration; a second call (even one whose open would fail)
changes nothing. -/
theorem log_file_lazy_witness :
    (getLogFile (Config.mkDefault true) true LogFileState.init).isOpen = true ∧
    getLogFile (Config.mkDefault true) false
        (getLogFile (Config.mkDefault true) true LogFileState.init) =
      getLogFile (Config.mkDefault true) true LogFileState.init ∧
    (Config.mkDefault true).logFileName = "Info.log" :=
  ⟨by decide,
    (log_file_lazy (Config.mkDefault true) false
      (getLogFile (Config.mkDefault true) true LogFileState.init) true).2.2.1 (by decide),
    by decide⟩

/-- Claim C9: for an active emitter `getStream` exposes the caller's sink,
and bytes written directly through it land exactly once between the line
head and the final newline; for an inactive emitter `getStream` exposes the
discard stream, so appends and direct writes through it produce no bytes. -/
theorem stream_passthrough (cfg : Config) (level : LogLevel) (loc : SourceLocation)
    (tse : Nat) (direct : String) (sink s0 : Sink) (t : String) :
    (isActive cfg level = true →
      (Log.construct cfg level loc tse sink).1.getStream = .sinkRef ∧
      runLogDirect cfg level loc tse direct sink =
        ⟨sink.data ++ headString cfg level loc tse ++ direct ++ "\n", sink.flushes + 1⟩)
    ∧ (isActive cfg level = false →
      (Log.construct cfg level loc tse sink).1.getStream = .nullRef ∧
      runLogDirect cfg level loc tse direct sink = sink ∧
      (Log.insert ⟨false⟩ t s0).2 = s0 ∧
      StreamRef.writeTo (Log.getStream ⟨false⟩) t s0 = s0) := by
  constructor
  · intro h
    constructor
    · rw [construct_fst, h]
      rfl
    · show (Log.construct cfg level loc tse sink).1.destruct
        ((Log.construct cfg level loc tse sink).1.getStream.writeTo direct
          (Log.construct cfg level loc tse sink).2) = _
      rw [construct_fst, construct_snd_active cfg level loc tse sink h, h]
      rfl
  · intro h
    refine ⟨?_, ?_, rfl, rfl⟩
    · rw [construct_fst, h]
      rfl
    · show (Log.construct cfg level loc tse sink).1.destruct
        ((Log.construct cfg level loc tse sink).1.getStream.writeTo direct
          (Log.construct cfg level loc tse sink).2) = _
      rw [construct_fst, construct_snd_inactive cfg level loc tse sink h, h]
      rfl

/-- Witness for C9: an active emitter at the example instant passes `DIRECT`
through unchanged between head and newline; an inactive one passes nothing. -/
theorem stream_passthrough_witness :
    isActive (Config.mkDefault true) .Info = true ∧
    ((Log.construct (Config.mkDefault true) .Info ⟨"example.cpp", 6, "f"⟩ 60264078
        ⟨"", 0⟩).1.getStream = .sinkRef ∧
      runLogDirect (Config.mkDefault true) .Info ⟨"example.cpp", 6, "f"⟩ 60264078
        "DIRECT" ⟨"", 0⟩ =
        ⟨"" ++ headString (Config.mkDefault true) .Info ⟨"example.cpp", 6, "f"⟩ 60264078 ++
          "DIRECT" ++ "\n", 0 + 1⟩) :=
  ⟨by decide,
    (stream_passthrough (Config.mkDefault true) .Info ⟨"example.cpp", 6, "f"⟩ 60264078
      "DIRECT" ⟨"", 0⟩ ⟨"", 0⟩ "x").1 (by decide)⟩

/-- Counterexample for claim C10: the activity decisions of the variants are
NOT equal for every level/threshold pair.  With threshold `Debug`, the main
`Log` emits an `Error` message (`Error >= Debug`) while the duplicated
`SimpleLogger` suppresses it (`Error <= Debug` fails), and `TinyLogger`
agrees with `SimpleLogger`. -/
theorem variants_activity_cex :
    isActive ⟨.Debug, false, 0, ""⟩ .Error = true ∧
    Variant2.is_active .Debug .Error = false ∧
    Tiny.emits .Debug .Error = false := by decide

/-- Claim C10 as amended: `SimpleLogger` and `TinyLogger` compute identical
activity decisions to each other for every level and threshold, but the main
`Log`'s decision agrees with theirs exactly when the level equals the
threshold; at every other pair the duplicated variants decide the opposite
of the main `Log`. -/
theorem variants_activity_amended (cfg : Config) (level : LogLevel) :
    (Variant2.is_active cfg.logLevel level = Tiny.emits cfg.logLevel level)
    ∧ (isActive cfg level = Variant2.is_active cfg.logLevel level ↔
        level = cfg.logLevel) := by
  obtain ⟨lvl, sig, tz, name⟩ := cfg
  cases lvl <;> cases level <;>
    simp [SimpleLogger.isActive, Variant2.is_active, Tiny.emits, SimpleLogger.LogLevel.toNat]

end Claims
